import Mathlib

/-!
Verification of the sigil contract-management engine.

This development shallowly embeds the core of the repository:
the contract record model (`src/model.rs`), the tolerant loader
(`src/tools/loader.rs`), the matcher (`src/tools/get_affected_contracts.rs`),
the validators (`src/tools/validate_contract.rs`,
`src/tools/validate_all_contracts.rs`), the list filter
(`src/tools/list_contracts.rs`), the mutators
(`src/tools/update_contract.rs`, `src/tools/delete_contract.rs`) and the
session gate (`src/tools/mod.rs`).

External crates used as black boxes by the code (toml / serde codecs, the
JSON-schema validator, the globset glob compiler, the textual diff) are
modelled as parameters gathered in a `Codecs` record, exactly at the
boundaries where the source calls into them.  The filesystem is modelled as
an association list from paths to file contents.
-/

namespace Sigil

/-- A structural JSON-like value, the embedding of `serde_json::Value` as the
code uses it (null, booleans, numbers, strings, arrays, ordered objects). -/
inductive Json where
  | null : Json
  | bool (b : Bool) : Json
  | num (n : Int) : Json
  | str (s : String) : Json
  | arr (elems : List Json) : Json
  | obj (fields : List (String × Json)) : Json
  deriving Repr

/-- Field lookup in an object field list, first match wins
(`serde_json::Map` keys are unique, so this is map lookup). -/
def lookupField : List (String × Json) → String → Option Json
  | [], _ => none
  | (k0, v) :: rest, k => if k0 = k then some v else lookupField rest k

/-- `Value::get(key)`: field lookup on objects, `none` on everything else. -/
def Json.get : Json → String → Option Json
  | Json.obj fields, k => lookupField fields k
  | _, _ => none

/-- `Value::as_str()`. -/
def Json.asStr : Json → Option String
  | Json.str s => some s
  | _ => none

/-- `Map::insert(k, v)`: replace the value at an existing key in place,
or append the binding when the key is absent. -/
def setField : List (String × Json) → String → Json → List (String × Json)
  | [], k, v => [(k, v)]
  | (k0, v0) :: rest, k, v =>
    if k0 = k then (k0, v) :: rest else (k0, v0) :: setField rest k v

/-- `Value::insert` on an object (used through `Json.obj`). -/
def Json.set : Json → String → Json → Json
  | Json.obj fields, k, v => Json.obj (setField fields k v)
  | j, _, _ => j

/-- `priority` enumeration from `src/model.rs`. -/
inductive Priority where
  | must | should | prefer
  deriving DecidableEq, Repr

/-- `status` enumeration from `src/model.rs`. -/
inductive Status where
  | active | draft | deprecated
  deriving DecidableEq, Repr

/-- `applies_to`: a single glob pattern or a list of them (`src/model.rs`). -/
inductive AppliesTo where
  | single (s : String)
  | multiple (xs : List String)
  deriving DecidableEq, Repr

/-- `Trigger` record: an optional `type` discriminator plus an open bag of
extra key/value data (`src/model.rs`). -/
structure Trigger where
  kind : Option String
  extra : List (String × Json)

/-- `Rule` sub-record (`src/model.rs`). -/
structure Rule where
  id : String
  description : String
  files : Option (List String) := none
  constraints : Option (List String) := none
  deriving DecidableEq, Repr

/-- `ChangelogEntry` (`src/model.rs`). -/
structure ChangelogEntry where
  version : String
  date : Option String := none
  description : String
  deriving DecidableEq, Repr

/-- The `Contract` record (`src/model.rs`). -/
structure Contract where
  id : String
  version : String
  name : String
  description : String
  priority : Priority := Priority.must
  status : Status := Status.active
  domain : Option String := none
  tags : Option (List String) := none
  applies_to : Option AppliesTo := none
  trigger : Option Trigger := none
  files : Option (List String) := none
  rules : Option (List Rule) := none
  notes : Option String := none
  changelog : Option (List ChangelogEntry) := none
  extra : List (String × Json) := []

/-- `Contract::all_files`: top-level `files` followed by every rule's
`files`, in declaration order, no deduplication (`src/model.rs`). -/
def Contract.all_files (c : Contract) : List String :=
  (c.files.getD []) ++ (c.rules.getD []).foldr (fun r acc => r.files.getD [] ++ acc) []

/-- `Contract::applies_to_patterns`: the single-or-list union flattened into
an ordered pattern list (`src/model.rs`). -/
def Contract.applies_to_patterns (c : Contract) : List String :=
  match c.applies_to with
  | none => []
  | some (AppliesTo.single s) => [s]
  | some (AppliesTo.multiple v) => v

/-- The filesystem, modelled as an association list from path to content. -/
def FS := List (String × String)

/-- `fs::read_to_string`, with absence as the only failure mode. -/
def FS.read (fs : FS) (p : String) : Option String :=
  match fs with
  | [] => none
  | (q, c) :: rest => if q = p then some c else FS.read rest p

/-- `Path::exists`. -/
def FS.pathExists (fs : FS) (p : String) : Bool :=
  (fs.read p).isSome

/-- `fs::write`: create or overwrite the file at `p`. -/
def FS.write (fs : FS) (p c : String) : FS :=
  (p, c) :: List.filter (fun (e : String × String) => decide (e.1 ≠ p)) fs

/-- `fs::remove_file`. -/
def FS.remove (fs : FS) (p : String) : FS :=
  List.filter (fun (e : String × String) => decide (e.1 ≠ p)) fs

/-- The black-box codec boundary: the external crates the handlers call
(toml / serde decoding, the JSON-schema validator, the glob compiler, the
textual diff), passed in as opaque functions exactly where the source
treats them as opaque. -/
structure Codecs where
  /-- `toml::from_str::<Contract>` as used by the loader. -/
  parseContract : String → Except String Contract
  /-- `toml::from_str::<serde_json::Value>` as used by update. -/
  parseToml : String → Except String Json
  /-- `serde_json::to_value` on a typed contract (infallible in the code). -/
  toJson : Contract → Json
  /-- `jsonschema` validator: the list of formatted error messages. -/
  schemaErrors : Json → List String
  /-- `serde_json::from_value::<Contract>` then `toml::to_string_pretty`. -/
  serializeContract : Json → Except String String
  /-- `serde_json::from_value::<Contract>` alone (for the warning pass). -/
  fromJsonContract : Json → Option Contract
  /-- `globset::Glob::new` then `compile_matcher`: a matcher or an error. -/
  compileGlob : String → Except String (String → Bool)
  /-- `similar::TextDiff` rendered as the non-equal lines only. -/
  diffLines : String → String → String

/-- `str::trim_end_matches('/')`. -/
def trimEndSlashes (s : String) : String :=
  String.mk ((s.data.reverse.dropWhile (fun c => c = '/')).reverse)

/-- `{contracts_dir}/{id}.contract.toml` with the directory slash-trimmed,
as every handler builds it. -/
def contractPath (contractsDir id : String) : String :=
  trimEndSlashes contractsDir ++ "/" ++ id ++ ".contract.toml"

/-- `str::replace('\\', "/")`: the upfront slash normalization applied to
candidate paths in `get_affected_contracts.rs`. -/
def normalizeSlashes (s : String) : String :=
  String.mk (s.data.map (fun c => if c = '\x5c' then '/' else c))

/-- `str::ends_with` for the ASCII record-file suffix, on the character
sequence (for an ASCII suffix, byte-suffix and character-suffix agree on
UTF-8 text). -/
def strEndsWith (s suffix : String) : Bool :=
  suffix.data.isSuffixOf s.data

/-- One file met by the `WalkDir` traversal in `load_contracts`
(`src/tools/loader.rs`): its file name, its displayed path, and the result
of `fs::read_to_string` on it. -/
structure DirEntry where
  fileName : String
  path : String
  content : Except String String

/-- The per-entry body of the loader loop (`src/tools/loader.rs`): keep
only `.contract.toml` files, turn a read failure or a parse failure into
one warning and skip, keep parsed contracts in traversal order. -/
def collectEntries (cs : Codecs) : List DirEntry → List Contract × List String
  | [] => ([], [])
  | e :: rest =>
    let r := collectEntries cs rest
    if strEndsWith e.fileName ".contract.toml" then
      match e.content with
      | Except.ok content =>
        match cs.parseContract content with
        | Except.ok c => (c :: r.1, r.2)
        | Except.error err =>
          (r.1, ("Failed to parse " ++ e.path ++ ": " ++ err) :: r.2)
      | Except.error err =>
        (r.1, ("Failed to read " ++ e.path ++ ": " ++ err) :: r.2)
    else r

/-- `load_contracts` (`src/tools/loader.rs`): collect, then stable-sort the
contracts by `id` ascending (`contracts.sort_by(|a, b| a.id.cmp(&b.id))`,
modelled as a stable insertion sort — any stable sort under the same total
preorder yields the same list). -/
def load_contracts (cs : Codecs) (entries : List DirEntry) :
    List Contract × List String :=
  let r := collectEntries cs entries
  (List.insertionSort (fun a b => a.id ≤ b.id) r.1, r.2)

/-- A minimal valid contract, used to instantiate theorems on concrete
inputs. -/
def testContract : Contract :=
  { id := "a", version := "1.0.0", name := "A", description := "d" }

/-- A contract declaring one invalid and one valid glob pattern, used to
instantiate theorems on concrete inputs. -/
def globContract : Contract :=
  { id := "g", version := "1.0.0", name := "G", description := "d",
    applies_to := some (AppliesTo.multiple ["bad[", "**"]) }

/-- A contract with a repeated rule id, used to instantiate theorems on
concrete inputs. -/
def dupRulesContract : Contract :=
  { id := "r", version := "1.0.0", name := "R", description := "d",
    rules := some [{ id := "x", description := "first" },
                   { id := "x", description := "repeat occurrence" }] }

/-- A concrete instantiation of the codec boundary, used to instantiate
theorems on concrete inputs: the content "good" parses to `testContract`,
"globby" to `globContract`, "dup" to `dupRulesContract`, everything else
fails; the glob "**" compiles to a matcher accepting everything, every
other pattern fails to compile. -/
def testCodecs : Codecs where
  parseContract := fun s =>
    if s = "good" then Except.ok testContract
    else if s = "globby" then Except.ok globContract
    else if s = "dup" then Except.ok dupRulesContract
    else Except.error "bad toml"
  parseToml := fun s =>
    if s = "oldtoml" then Except.ok (Json.obj [("id", Json.str "a")])
    else Except.error "bad toml"
  toJson := fun _ => Json.null
  schemaErrors := fun _ => []
  serializeContract := fun _ => Except.ok "serialized"
  fromJsonContract := fun _ => none
  compileGlob := fun p =>
    if p = "**" then Except.ok (fun _ => true) else Except.error "invalid glob"
  diffLines := fun _ _ => ""

/-- Splitting the traversal splits the loader's collection pass. -/
theorem collectEntries_append (cs : Codecs) (xs ys : List DirEntry) :
    collectEntries cs (xs ++ ys) =
      ((collectEntries cs xs).1 ++ (collectEntries cs ys).1,
       (collectEntries cs xs).2 ++ (collectEntries cs ys).2) := by
  induction xs with
  | nil => simp [collectEntries]
  | cons e rest ih =>
    obtain ⟨n, p, cont⟩ := e
    by_cases h : strEndsWith n ".contract.toml"
    · cases cont with
      | ok content =>
        cases hpc : cs.parseContract content with
        | ok c => simp [collectEntries, h, hpc, ih]
        | error err => simp [collectEntries, h, hpc, ih]
      | error err => simp [collectEntries, h, ih]
    · simp [collectEntries, h, ih]

/-- C2: for every directory contents and every order in which the
filesystem traversal yields the files, the record list returned by
`load_contracts` is sorted by contract `id` in ascending, case-sensitive
ordinal order. -/
theorem load_contracts_sorted_by_id (cs : Codecs) (entries : List DirEntry) :
    List.Sorted (fun a b : Contract => a.id ≤ b.id)
      (load_contracts cs entries).1 := by
  haveI : IsTotal Contract (fun a b => a.id ≤ b.id) :=
    ⟨fun a b => le_total a.id b.id⟩
  haveI : IsTrans Contract (fun a b => a.id ≤ b.id) :=
    ⟨fun _ _ _ h1 h2 => le_trans h1 h2⟩
  exact List.sorted_insertionSort _ _

/-- C5: a record file whose content fails to parse is excluded from the
record list, contributes exactly one warning referencing that file's path,
and the remaining files load exactly as they would without it — one
malformed file never aborts the whole scan. -/
theorem load_contracts_skips_malformed (cs : Codecs)
    (pre post : List DirEntry) (fileName path content err : String)
    (hname : strEndsWith fileName ".contract.toml" = true)
    (hparse : cs.parseContract content = Except.error err) :
    load_contracts cs (pre ++ ⟨fileName, path, Except.ok content⟩ :: post) =
      ((load_contracts cs (pre ++ post)).1,
       (collectEntries cs pre).2 ++
         ("Failed to parse " ++ path ++ ": " ++ err) ::
           (collectEntries cs post).2) := by
  have hbad :
      collectEntries cs (⟨fileName, path, Except.ok content⟩ :: post) =
        ((collectEntries cs post).1,
         ("Failed to parse " ++ path ++ ": " ++ err) ::
           (collectEntries cs post).2) := by
    simp [collectEntries, hname, hparse]
  simp [load_contracts, collectEntries_append, hbad]

/-- Witness for C5 at a concrete malformed entry. -/
theorem load_contracts_skips_malformed_witness :
    load_contracts testCodecs
        ([⟨"g.contract.toml", "d/g.contract.toml", Except.ok "good"⟩] ++
          ⟨"b.contract.toml", "d/b.contract.toml", Except.ok "junk"⟩ :: []) =
      ((load_contracts testCodecs
          ([⟨"g.contract.toml", "d/g.contract.toml", Except.ok "good"⟩] ++ [])).1,
       (collectEntries testCodecs
          [⟨"g.contract.toml", "d/g.contract.toml", Except.ok "good"⟩]).2 ++
         ("Failed to parse " ++ "d/b.contract.toml" ++ ": " ++ "bad toml") ::
           (collectEntries testCodecs []).2) :=
  load_contracts_skips_malformed testCodecs
    [⟨"g.contract.toml", "d/g.contract.toml", Except.ok "good"⟩] []
    "b.contract.toml" "d/b.contract.toml" "junk" "bad toml"
    (by decide) (by rfl)

/-- One non-empty glob match group in the affected-contracts response
(`src/tools/get_affected_contracts.rs`). -/
structure AppliesMatch where
  pattern : String
  matched_files : List String
  deriving DecidableEq, Repr

/-- The `matched_files` field of an affected-contract summary. -/
structure MatchedFiles where
  direct : List String
  applies_to : List AppliesMatch
  deriving DecidableEq, Repr

/-- One affected-contract summary (`src/tools/get_affected_contracts.rs`). -/
structure AffectedSummary where
  id : String
  version : String
  name : String
  description : String
  priority : Priority
  status : Status
  domain : Option String
  tags : Option (List String)
  trigger_type : Option String
  file_count : Nat
  matched_files : MatchedFiles

/-- The direct-match computation: keep the candidate paths (already
slash-normalized by the caller) that occur verbatim in the contract's
`all_files()` (`files.iter().filter(|f| contract_files.contains(f))`). -/
def directMatches (c : Contract) (files : List String) : List String :=
  files.filter (fun f => (c.all_files).contains f)

/-- The per-pattern glob loop: compile each `applies_to` pattern; on
compile failure push one warning naming the contract and the pattern and
skip it; on success collect the matching candidates in input order,
keeping only non-empty groups. Returns (match groups, warnings). -/
def appliesMatches (cs : Codecs) (cid : String) (files : List String) :
    List String → List AppliesMatch × List String
  | [] => ([], [])
  | p :: rest =>
    let r := appliesMatches cs cid files rest
    match cs.compileGlob p with
    | Except.ok m =>
      let matched := files.filter m
      if matched.isEmpty then r else (⟨p, matched⟩ :: r.1, r.2)
    | Except.error e =>
      (r.1,
       ("Contract " ++ cid ++ ": invalid applies_to pattern " ++ p ++ ": " ++ e)
         :: r.2)

/-- Building one affected summary from a contract and its match results. -/
def mkAffectedSummary (c : Contract) (direct : List String)
    (applies : List AppliesMatch) : AffectedSummary :=
  { id := c.id, version := c.version, name := c.name,
    description := c.description, priority := c.priority, status := c.status,
    domain := c.domain, tags := c.tags,
    trigger_type := c.trigger.bind (fun t => t.kind),
    file_count := c.all_files.length,
    matched_files := ⟨direct, applies⟩ }

/-- The per-contract loop of `get_affected_contracts::handle`: a contract
with neither direct nor glob matches is skipped, but its pattern warnings
are kept either way. -/
def affectedLoop (cs : Codecs) (files : List String) :
    List Contract → List AffectedSummary × List String
  | [] => ([], [])
  | c :: rest =>
    let direct := directMatches c files
    let applies := appliesMatches cs c.id files c.applies_to_patterns
    let r := affectedLoop cs files rest
    if direct.isEmpty && applies.1.isEmpty then (r.1, applies.2 ++ r.2)
    else (mkAffectedSummary c direct applies.1 :: r.1, applies.2 ++ r.2)

/-- The response of `get_affected_contracts::handle`. -/
structure AffectedResponse where
  contracts : List AffectedSummary
  total : Nat
  warnings : List String

/-- `get_affected_contracts::handle`: load, normalize the candidate paths
(backslash to forward slash), then run the matching loop over every loaded
contract. -/
def get_affected_handle (cs : Codecs) (entries : List DirEntry)
    (paramFiles : List String) : AffectedResponse :=
  let loaded := load_contracts cs entries
  let files := paramFiles.map normalizeSlashes
  let r := affectedLoop cs files loaded.1
  { contracts := r.1, total := r.1.length, warnings := loaded.2 ++ r.2 }

/-- A contract declaring both a path and a strict extension of it, used to
probe the direct matcher. -/
def prefixProbeContract : Contract :=
  { id := "p", version := "1.0.0", name := "P", description := "d",
    files := some ["src/foo", "src/foo.rs"] }

/-- Counterexample to C4 as stated: the candidate "src/foo" is a strict
prefix of the declared path "src/foo.rs", yet it IS a direct match,
because it is also itself a declared path. Being a strict prefix of a
declared path does not by itself exclude a candidate from direct
matching. -/
theorem direct_match_strict_prefix_counterexample :
    ("src/foo".data <+: "src/foo.rs".data) ∧
    ("src/foo" : String) ≠ "src/foo.rs" ∧
    "src/foo.rs" ∈ prefixProbeContract.all_files ∧
    "src/foo" ∈ directMatches prefixProbeContract
      (["src/foo"].map normalizeSlashes) := by
  refine ⟨by decide, by decide, ?_, ?_⟩
  · simp [prefixProbeContract, Contract.all_files]
  · simp [prefixProbeContract, directMatches, Contract.all_files,
      normalizeSlashes]

/-- C4 (amended): a candidate path is a direct match exactly when its
slash-normalized form is string-equal to some element of the contract's
`all_files()` (declared paths being compared as stored, without
normalization); consequently a candidate that is a strict prefix of a
declared path and is not itself string-equal to any declared path is never
a direct match. -/
theorem direct_match_iff (c : Contract) (candidates : List String) :
    (∀ p, p ∈ directMatches c (candidates.map normalizeSlashes) ↔
      (p ∈ candidates.map normalizeSlashes ∧ p ∈ c.all_files)) ∧
    (∀ q ∈ candidates, ∀ d ∈ c.all_files,
      (normalizeSlashes q).data <+: d.data → normalizeSlashes q ≠ d →
      normalizeSlashes q ∉ c.all_files →
      normalizeSlashes q ∉ directMatches c (candidates.map normalizeSlashes)) := by
  have hmem : ∀ p, p ∈ directMatches c (candidates.map normalizeSlashes) ↔
      (p ∈ candidates.map normalizeSlashes ∧ p ∈ c.all_files) := by
    intro p
    simp only [directMatches, List.mem_filter, List.contains, List.elem_iff]
  refine ⟨hmem, ?_⟩
  intro q _ d _ _ _ hnot hdir
  exact hnot ((hmem (normalizeSlashes q)).1 hdir).2

/-- Witness for C4 (amended): the candidate "src\x5cfo" normalizes to
"src/fo", a strict prefix of the declared "src/foo" that is not itself
declared, and is not a direct match. -/
theorem direct_match_iff_witness :
    normalizeSlashes "src\x5cfo" ∉
      directMatches prefixProbeContract (["src\x5cfo"].map normalizeSlashes) :=
  (direct_match_iff prefixProbeContract ["src\x5cfo"]).2 "src\x5cfo" (by decide)
    "src/foo"
    (by simp [prefixProbeContract, Contract.all_files])
    (by decide) (by decide)
    (by simp [prefixProbeContract, Contract.all_files, normalizeSlashes])

/-- The glob loop emits exactly one warning, naming the contract id and the
bad pattern, per pattern that fails to compile, and nothing else. -/
theorem appliesMatches_warnings (cs : Codecs) (cid : String)
    (files patterns : List String) :
    (appliesMatches cs cid files patterns).2 =
      patterns.filterMap (fun p =>
        match cs.compileGlob p with
        | Except.ok _ => none
        | Except.error e =>
          some ("Contract " ++ cid ++ ": invalid applies_to pattern "
            ++ p ++ ": " ++ e)) := by
  induction patterns with
  | nil => simp [appliesMatches]
  | cons p rest ih =>
    cases hg : cs.compileGlob p with
    | ok m =>
      simp only [appliesMatches, hg, List.filterMap_cons]
      split
      · exact ih
      · simpa using ih
    | error e =>
      simp only [appliesMatches, hg, List.filterMap_cons]
      simpa using ih

/-- The glob loop's match groups are the same as if the patterns that fail
to compile had been absent: a failing pattern is skipped, the remaining
patterns still run. -/
theorem appliesMatches_skips_failures (cs : Codecs) (cid : String)
    (files patterns : List String) :
    (appliesMatches cs cid files patterns).1 =
      (appliesMatches cs cid files
        (patterns.filter (fun q => (cs.compileGlob q).isOk))).1 := by
  induction patterns with
  | nil => simp [appliesMatches]
  | cons p rest ih =>
    cases hg : cs.compileGlob p with
    | ok m =>
      have hok : ((fun q => (cs.compileGlob q).isOk) p) = true := by
        simp [hg, Except.isOk, Except.toBool]
      rw [List.filter_cons, if_pos hok]
      simp only [appliesMatches, hg]
      split
      · exact ih
      · simpa using ih
    | error e =>
      have hok : ¬ ((fun q => (cs.compileGlob q).isOk) p) = true := by
        simp [hg, Except.isOk, Except.toBool]
      rw [List.filter_cons, if_neg hok]
      simp only [appliesMatches, hg]
      exact ih

/-- The matching loop's warning list is the concatenation, in contract
order, of each contract's glob-loop warnings (a contract without matches
still keeps its warnings). -/
theorem affectedLoop_warnings (cs : Codecs) (files : List String)
    (l : List Contract) :
    (affectedLoop cs files l).2 =
      l.flatMap
        (fun c => (appliesMatches cs c.id files c.applies_to_patterns).2) := by
  induction l with
  | nil => simp [affectedLoop]
  | cons c rest ih =>
    simp only [affectedLoop, List.flatMap_cons]
    split
    · simpa using ih
    · simpa using ih

/-- C8: when an `applies_to` pattern of a loaded contract fails to
compile, the affected-contracts pass emits one warning naming that
contract id and the bad pattern, and the pattern is skipped: the match
groups are those of the successfully compiled patterns alone, for this
and every other contract — the pass as a whole still returns a result. -/
theorem glob_failure_warns_and_skips (cs : Codecs) (entries : List DirEntry)
    (paramFiles : List String) (c : Contract) (p e : String)
    (hc : c ∈ (load_contracts cs entries).1)
    (hp : p ∈ c.applies_to_patterns)
    (he : cs.compileGlob p = Except.error e) :
    ("Contract " ++ c.id ++ ": invalid applies_to pattern " ++ p ++ ": " ++ e)
      ∈ (get_affected_handle cs entries paramFiles).warnings ∧
    (∀ cid files patterns,
      (appliesMatches cs cid files patterns).1 =
        (appliesMatches cs cid files
          (patterns.filter (fun q => (cs.compileGlob q).isOk))).1) := by
  refine ⟨?_, fun cid files patterns =>
    appliesMatches_skips_failures cs cid files patterns⟩
  simp only [get_affected_handle, List.mem_append]
  right
  rw [affectedLoop_warnings]
  rw [List.mem_flatMap]
  refine ⟨c, hc, ?_⟩
  rw [appliesMatches_warnings]
  rw [List.mem_filterMap]
  exact ⟨p, hp, by simp [he]⟩

/-- Witness for C8 at a concrete store: one loaded contract with the
invalid pattern "bad[". -/
theorem glob_failure_warns_and_skips_witness :
    ("Contract " ++ "g" ++ ": invalid applies_to pattern " ++ "bad["
        ++ ": " ++ "invalid glob")
      ∈ (get_affected_handle testCodecs
          [⟨"g.contract.toml", "d/g.contract.toml", Except.ok "globby"⟩]
          ["x.rs"]).warnings ∧
    (∀ cid files patterns,
      (appliesMatches testCodecs cid files patterns).1 =
        (appliesMatches testCodecs cid files
          (patterns.filter (fun q => (testCodecs.compileGlob q).isOk))).1) :=
  glob_failure_warns_and_skips testCodecs
    [⟨"g.contract.toml", "d/g.contract.toml", Except.ok "globby"⟩]
    ["x.rs"] globContract "bad[" "invalid glob"
    (by
      have h1 : (load_contracts testCodecs
          [⟨"g.contract.toml", "d/g.contract.toml", Except.ok "globby"⟩]).1 =
          [globContract] := rfl
      rw [h1]
      exact List.mem_singleton.mpr rfl)
    (by simp [globContract, Contract.applies_to_patterns])
    rfl

/-- One contract summary in the list response
(`src/tools/list_contracts.rs`). -/
structure Summary where
  id : String
  version : String
  name : String
  description : String
  priority : Priority
  status : Status
  domain : Option String
  tags : Option (List String)
  trigger_type : Option String
  file_count : Nat

/-- The filter predicate of `list_contracts::handle`: reject when a domain
filter is present and the contract's domain is not exactly it; reject when
a tag filter is present and none of its tags occurs in the contract's
tags; keep otherwise. -/
def listFilter (domain : Option String) (tags : Option (List String))
    (c : Contract) : Bool :=
  (match domain with
   | some d => c.domain == some d
   | none => true) &&
  (match tags with
   | some filter_tags =>
     filter_tags.any (fun t => (c.tags.getD []).contains t)
   | none => true)

/-- The summary built for each kept contract. -/
def mkSummary (c : Contract) : Summary :=
  { id := c.id, version := c.version, name := c.name,
    description := c.description, priority := c.priority, status := c.status,
    domain := c.domain, tags := c.tags,
    trigger_type := c.trigger.bind (fun t => t.kind),
    file_count := c.all_files.length }

/-- The missing-file warnings pushed while summarizing one kept contract. -/
def listWarnings (fs : FS) (c : Contract) : List String :=
  c.all_files.filterMap (fun p =>
    if fs.pathExists p then none
    else some ("Contract " ++ c.id ++ ": missing file " ++ p))

/-- The response of `list_contracts::handle`. -/
structure ListResponse where
  contracts : List Summary
  total : Nat
  warnings : List String

/-- `list_contracts::handle`: load, filter by the optional domain and tag
filters, summarize the kept contracts (warning on their missing files). -/
def list_contracts_handle (cs : Codecs) (fs : FS) (entries : List DirEntry)
    (domain : Option String) (tags : Option (List String)) : ListResponse :=
  let loaded := load_contracts cs entries
  let filtered := loaded.1.filter (listFilter domain tags)
  { contracts := filtered.map mkSummary,
    total := filtered.length,
    warnings := loaded.2 ++ filtered.flatMap (listWarnings fs) }

/-- C9: the list result consists of the summaries of exactly those loaded
contracts for which (no domain filter is given, or the contract's domain
equals it exactly) and (no tag filter is given, or at least one of the
filter tags occurs in the contract's tags) — tag filtering is OR across
the given tags, and when both filters are given both must hold. -/
theorem list_filter_characterization (cs : Codecs) (fs : FS)
    (entries : List DirEntry) (domain : Option String)
    (tags : Option (List String)) :
    (list_contracts_handle cs fs entries domain tags).contracts =
      ((load_contracts cs entries).1.filter (listFilter domain tags)).map
        mkSummary ∧
    ∀ c ∈ (load_contracts cs entries).1,
      (c ∈ (load_contracts cs entries).1.filter (listFilter domain tags) ↔
        ((domain = none ∨ c.domain = domain) ∧
         (tags = none ∨
           ∃ ts, tags = some ts ∧ ∃ t ∈ ts, t ∈ c.tags.getD []))) := by
  refine ⟨rfl, ?_⟩
  intro c hc
  have hdom :
      ((match domain with
        | some d => c.domain == some d
        | none => true) = true) ↔ (domain = none ∨ c.domain = domain) := by
    cases domain with
    | none => simp
    | some d => simp [beq_iff_eq]
  have htag :
      ((match tags with
        | some filter_tags =>
          filter_tags.any (fun t => (c.tags.getD []).contains t)
        | none => true) = true) ↔
        (tags = none ∨
          ∃ ts, tags = some ts ∧ ∃ t ∈ ts, t ∈ c.tags.getD []) := by
    cases tags with
    | none => simp
    | some ts => simp [List.any_eq_true, List.contains, List.elem_iff]
  rw [List.mem_filter]
  simp only [hc, true_and, listFilter, Bool.and_eq_true, hdom, htag]

/-- Witness for C9 at a concrete store and filters. -/
theorem list_filter_characterization_witness :
    testContract ∈
      (load_contracts testCodecs
        [⟨"a.contract.toml", "d/a.contract.toml", Except.ok "good"⟩]).1.filter
        (listFilter none none) :=
  ((list_filter_characterization testCodecs []
      [⟨"a.contract.toml", "d/a.contract.toml", Except.ok "good"⟩]
      none none).2 testContract
    (by
      have h1 : (load_contracts testCodecs
          [⟨"a.contract.toml", "d/a.contract.toml", Except.ok "good"⟩]).1 =
          [testContract] := rfl
      rw [h1]
      exact List.mem_singleton.mpr rfl)).2
    (by simp)

/-- One finding of `validate_contract::handle`
(`src/tools/validate_contract.rs`). -/
structure Issue where
  kind : String
  message : String
  file : Option String := none
  deriving DecidableEq, Repr

/-- One finding of `validate_all_contracts::handle`, which additionally
carries the owning contract id (`src/tools/validate_all_contracts.rs`). -/
structure IssueAll where
  kind : String
  contract_id : Option String := none
  message : String
  file : Option String := none
  deriving DecidableEq, Repr

/-- The seen-set loop over one contract's rules
(`if !seen.insert(b.id) then push duplicate error`): an occurrence whose
id was already inserted is flagged; a first occurrence inserts silently.
Returns the flagged ids in rule order. -/
def dupRuleIdsAux : List Rule → List String → List String
  | [], _ => []
  | b :: rest, seen =>
    if b.id ∈ seen then b.id :: dupRuleIdsAux rest seen
    else dupRuleIdsAux rest (b.id :: seen)

/-- Duplicate-rule-id detection starting from an empty seen set. -/
def dupRuleIds (rules : List Rule) : List String :=
  dupRuleIdsAux rules []

/-- Schema findings for one contract: the contract is serialized to its
canonical structural form and checked against the fixed schema. -/
def schemaIssues (cs : Codecs) (c : Contract) : List Issue :=
  (cs.schemaErrors (cs.toJson c)).map
    (fun m => { kind := "schema", message := m })

/-- Missing-file findings: one error per path of `all_files()` that does
not exist on disk. -/
def missingFileIssues (fs : FS) (c : Contract) : List Issue :=
  c.all_files.filterMap (fun p =>
    if fs.pathExists p then none
    else some { kind := "missing_file",
                message := "Referenced file does not exist: " ++ p,
                file := some p })

/-- Duplicate-rule-id findings of one contract. -/
def dupRuleIssues (c : Contract) : List Issue :=
  (dupRuleIds (c.rules.getD [])).map
    (fun i => { kind := "duplicate_rule_id",
                message := "Duplicate rule id: " ++ i })

/-- Filename/id consistency: a missing file at the expected conventional
path is a warning, never an error. -/
def filenameMismatchWarnings (fs : FS) (contractsDir : String)
    (c : Contract) : List Issue :=
  if fs.pathExists (contractPath contractsDir c.id) then []
  else
    [{ kind := "filename_mismatch",
       message := "No file found at expected path "
         ++ contractPath contractsDir c.id ++ " for contract id " ++ c.id,
       file := some (contractPath contractsDir c.id) }]

/-- The response of `validate_contract::handle`. -/
structure ValidateResponse where
  pass : Bool
  errors : List Issue
  warnings : List Issue

/-- `validate_contract::handle`: load (folding loader warnings in as
`load_warning` issues), find the requested contract, run the three error
checks and the filename-consistency warning check, and let `pass` be the
emptiness of the error list. -/
def validate_contract_handle (cs : Codecs) (fs : FS) (contractsDir : String)
    (entries : List DirEntry) (contract_id : String) :
    Except String ValidateResponse :=
  let loaded := load_contracts cs entries
  let warnings0 : List Issue :=
    loaded.2.map (fun m => { kind := "load_warning", message := m })
  match loaded.1.find? (fun c => c.id == contract_id) with
  | none => Except.error ("Contract " ++ contract_id ++ " not found")
  | some contract =>
    let errors :=
      schemaIssues cs contract ++ missingFileIssues fs contract ++
        dupRuleIssues contract
    let warnings :=
      warnings0 ++ filenameMismatchWarnings fs contractsDir contract
    Except.ok { pass := errors.isEmpty, errors := errors,
                warnings := warnings }

/-- The error findings of `validate_all_contracts::handle` for one
contract: schema, then missing files, then duplicate rule ids, each
carrying the contract id. -/
def contractErrorsAll (cs : Codecs) (fs : FS) (c : Contract) :
    List IssueAll :=
  ((cs.schemaErrors (cs.toJson c)).map
      (fun m => ({ kind := "schema", contract_id := some c.id,
                   message := m } : IssueAll))) ++
  (c.all_files.filterMap (fun p =>
    if fs.pathExists p then none
    else some { kind := "missing_file", contract_id := some c.id,
                message := "Referenced file does not exist: " ++ p,
                file := some p })) ++
  ((dupRuleIds (c.rules.getD [])).map
    (fun i => ({ kind := "duplicate_rule_id", contract_id := some c.id,
                 message := "Duplicate rule id: " ++ i } : IssueAll)))

/-- The warning findings of `validate_all_contracts::handle` for one
contract: the filename/id consistency check. -/
def contractWarningsAll (fs : FS) (contractsDir : String) (c : Contract) :
    List IssueAll :=
  if fs.pathExists (contractPath contractsDir c.id) then []
  else
    [{ kind := "filename_mismatch", contract_id := some c.id,
       message := "Contract id " ++ c.id ++ " has no matching file at "
         ++ contractPath contractsDir c.id,
       file := some (contractPath contractsDir c.id) }]

/-- The per-contract loop of `validate_all_contracts::handle`. -/
def validateAllLoop (cs : Codecs) (fs : FS) (contractsDir : String) :
    List Contract → List IssueAll × List IssueAll
  | [] => ([], [])
  | c :: rest =>
    let r := validateAllLoop cs fs contractsDir rest
    (contractErrorsAll cs fs c ++ r.1,
     contractWarningsAll fs contractsDir c ++ r.2)

/-- The response of `validate_all_contracts::handle`. -/
structure ValidateAllResponse where
  pass : Bool
  errors : List IssueAll
  warnings : List IssueAll

/-- `validate_all_contracts::handle`: load (loader warnings folded in as
`load_warning` issues), validate every loaded contract, `pass` is the
emptiness of the combined error list. -/
def validate_all_handle (cs : Codecs) (fs : FS) (contractsDir : String)
    (entries : List DirEntry) : ValidateAllResponse :=
  let loaded := load_contracts cs entries
  let warnings0 : List IssueAll :=
    loaded.2.map (fun m => { kind := "load_warning", message := m })
  let r := validateAllLoop cs fs contractsDir loaded.1
  { pass := r.1.isEmpty, errors := r.1, warnings := warnings0 ++ r.2 }

/-- Every error the single-contract validator can build has kind
`schema`, `missing_file` or `duplicate_rule_id`. -/
theorem validate_one_errors_kind (cs : Codecs) (fs : FS) (c : Contract) :
    ∀ i ∈ schemaIssues cs c ++ missingFileIssues fs c ++ dupRuleIssues c,
      i.kind = "schema" ∨ i.kind = "missing_file" ∨
        i.kind = "duplicate_rule_id" := by
  intro i hi
  rcases List.mem_append.1 hi with hi | hi
  · rcases List.mem_append.1 hi with hi | hi
    · left
      rcases List.mem_map.1 hi with ⟨m, _, rfl⟩
      rfl
    · right; left
      rcases List.mem_filterMap.1 hi with ⟨p, _, hp⟩
      split at hp
      · exact absurd hp (by simp)
      · cases hp
        rfl
  · right; right
    rcases List.mem_map.1 hi with ⟨m, _, rfl⟩
    rfl

/-- Every error the batch validator builds for one contract has kind
`schema`, `missing_file` or `duplicate_rule_id`. -/
theorem contractErrorsAll_kind (cs : Codecs) (fs : FS) (c : Contract) :
    ∀ i ∈ contractErrorsAll cs fs c,
      i.kind = "schema" ∨ i.kind = "missing_file" ∨
        i.kind = "duplicate_rule_id" := by
  intro i hi
  rcases List.mem_append.1 hi with hi | hi
  · rcases List.mem_append.1 hi with hi | hi
    · left
      rcases List.mem_map.1 hi with ⟨m, _, rfl⟩
      rfl
    · right; left
      rcases List.mem_filterMap.1 hi with ⟨p, _, hp⟩
      split at hp
      · exact absurd hp (by simp)
      · cases hp
        rfl
  · right; right
    rcases List.mem_map.1 hi with ⟨m, _, rfl⟩
    rfl

/-- The batch validator's error list is the concatenation of the
per-contract error lists, in contract order. -/
theorem validateAllLoop_errors (cs : Codecs) (fs : FS) (dir : String)
    (l : List Contract) :
    (validateAllLoop cs fs dir l).1 = l.flatMap (contractErrorsAll cs fs) := by
  induction l with
  | nil => rfl
  | cons c rest ih => simp [validateAllLoop, ih]

/-- C3: in both the single-contract and the batch validation result, the
`pass` flag is true exactly when the error list is empty, and no error
ever has kind `filename_mismatch` — filename-mismatch findings live in
the warning list and cannot affect `pass`. -/
theorem validation_pass_iff_no_errors :
    (∀ (cs : Codecs) (fs : FS) (dir : String) (entries : List DirEntry)
        (cid : String) (resp : ValidateResponse),
      validate_contract_handle cs fs dir entries cid = Except.ok resp →
      ((resp.pass = true ↔ resp.errors = []) ∧
        ∀ i ∈ resp.errors, i.kind ≠ "filename_mismatch")) ∧
    (∀ (cs : Codecs) (fs : FS) (dir : String) (entries : List DirEntry),
      (((validate_all_handle cs fs dir entries).pass = true ↔
          (validate_all_handle cs fs dir entries).errors = []) ∧
        ∀ i ∈ (validate_all_handle cs fs dir entries).errors,
          i.kind ≠ "filename_mismatch")) := by
  constructor
  · intro cs fs dir entries cid resp h
    simp only [validate_contract_handle] at h
    cases hf : (load_contracts cs entries).1.find? (fun c => c.id == cid) with
    | none => rw [hf] at h; exact absurd h (by simp)
    | some contract =>
      rw [hf] at h
      cases h
      refine ⟨List.isEmpty_iff, ?_⟩
      intro i hi
      rcases validate_one_errors_kind cs fs contract i hi with h1 | h1 | h1 <;>
        · rw [h1]; decide
  · intro cs fs dir entries
    refine ⟨List.isEmpty_iff, ?_⟩
    intro i hi
    simp only [validate_all_handle] at hi
    rw [validateAllLoop_errors] at hi
    rcases List.mem_flatMap.1 hi with ⟨c, _, hic⟩
    rcases contractErrorsAll_kind cs fs c i hic with h1 | h1 | h1 <;>
      · rw [h1]; decide

/-- Witness for C3 at a concrete store with one valid contract. -/
theorem validation_pass_iff_no_errors_witness :
    (({ pass := true, errors := [],
        warnings :=
          [{ kind := "filename_mismatch",
             message := "No file found at expected path /c/a.contract.toml"
               ++ " for contract id a",
             file := some "/c/a.contract.toml" }] } :
        ValidateResponse).pass = true ↔
      ({ pass := true, errors := [],
         warnings :=
           [{ kind := "filename_mismatch",
              message := "No file found at expected path /c/a.contract.toml"
                ++ " for contract id a",
              file := some "/c/a.contract.toml" }] } :
         ValidateResponse).errors = []) ∧
    ∀ i ∈ ({ pass := true, errors := [],
             warnings :=
               [{ kind := "filename_mismatch",
                  message := "No file found at expected path"
                    ++ " /c/a.contract.toml for contract id a",
                  file := some "/c/a.contract.toml" }] } :
             ValidateResponse).errors,
      i.kind ≠ "filename_mismatch" :=
  validation_pass_iff_no_errors.1 testCodecs [] "/c"
    [⟨"a.contract.toml", "d/a.contract.toml", Except.ok "good"⟩] "a" _ rfl

/-- The claim's notion of duplicate flagging, written from its words: walk
the occurrences in order, flag an occurrence exactly when its id appeared
at an earlier position (so a first occurrence is never flagged), one flag
per repeat occurrence. -/
def flagRepeats : List String → List String → List String
  | [], _ => []
  | x :: rest, earlier =>
    if x ∈ earlier then x :: flagRepeats rest (x :: earlier)
    else flagRepeats rest (x :: earlier)

/-- The code's seen-set loop agrees with the claim's earlier-occurrence
flagging whenever the seen set and the earlier-occurrence list hold the
same ids. -/
theorem dupRuleIdsAux_eq_flagRepeats :
    ∀ (rules : List Rule) (seen earlier : List String),
      (∀ y, y ∈ seen ↔ y ∈ earlier) →
      dupRuleIdsAux rules seen = flagRepeats (rules.map Rule.id) earlier := by
  intro rules
  induction rules with
  | nil => intro seen earlier _; rfl
  | cons b rest ih =>
    intro seen earlier hequiv
    have hnext : ∀ y, y ∈ b.id :: seen ↔ y ∈ b.id :: earlier := by
      intro y
      simp only [List.mem_cons, hequiv]
    by_cases hb : b.id ∈ seen
    · have hb' : b.id ∈ earlier := (hequiv _).1 hb
      have hseen : ∀ y, y ∈ seen ↔ y ∈ b.id :: earlier := by
        intro y
        simp only [List.mem_cons, hequiv]
        constructor
        · exact fun h => Or.inr h
        · rintro (rfl | h)
          · exact hb'
          · exact h
      simp only [dupRuleIdsAux, flagRepeats, List.map_cons, if_pos hb,
        if_pos hb']
      exact congrArg (b.id :: ·) (ih seen (b.id :: earlier) hseen)
    · have hb' : b.id ∉ earlier := fun h => hb ((hequiv _).2 h)
      simp only [dupRuleIdsAux, flagRepeats, List.map_cons, if_neg hb,
        if_neg hb']
      exact ih (b.id :: seen) (b.id :: earlier) hnext

/-- C6: in both validators, the duplicate-rule-id errors of one contract
are exactly one error per occurrence of a rule id after its first
occurrence, in rule order; a first occurrence is never flagged. -/
theorem duplicate_rule_id_characterization (cs : Codecs) (fs : FS)
    (dir : String) (entries : List DirEntry) (cid : String)
    (contract : Contract) (resp : ValidateResponse)
    (hfind : (load_contracts cs entries).1.find? (fun c => c.id == cid) =
      some contract)
    (h : validate_contract_handle cs fs dir entries cid = Except.ok resp) :
    resp.errors.filter (fun i => i.kind == "duplicate_rule_id") =
      (flagRepeats ((contract.rules.getD []).map Rule.id) []).map
        (fun i => { kind := "duplicate_rule_id",
                    message := "Duplicate rule id: " ++ i }) ∧
    ∀ c : Contract,
      (contractErrorsAll cs fs c).filter
          (fun i => i.kind == "duplicate_rule_id") =
        (flagRepeats ((c.rules.getD []).map Rule.id) []).map
          (fun i => ({ kind := "duplicate_rule_id",
                       contract_id := some c.id,
                       message := "Duplicate rule id: " ++ i } : IssueAll)) := by
  have hflag : ∀ rules : List Rule,
      dupRuleIds rules = flagRepeats (rules.map Rule.id) [] :=
    fun rules => dupRuleIdsAux_eq_flagRepeats rules [] [] (fun y => Iff.rfl)
  constructor
  · simp only [validate_contract_handle, hfind] at h
    cases h
    simp only [List.filter_append]
    have h1 : (schemaIssues cs contract).filter
        (fun i => i.kind == "duplicate_rule_id") = [] := by
      rw [List.filter_eq_nil_iff]
      intro i hi
      rcases List.mem_map.1 hi with ⟨m, _, rfl⟩
      simp
    have h2 : (missingFileIssues fs contract).filter
        (fun i => i.kind == "duplicate_rule_id") = [] := by
      rw [List.filter_eq_nil_iff]
      intro i hi
      rcases List.mem_filterMap.1 hi with ⟨p, _, hp⟩
      split at hp
      · exact absurd hp (by simp)
      · cases hp
        simp
    have h3 : (dupRuleIssues contract).filter
        (fun i => i.kind == "duplicate_rule_id") = dupRuleIssues contract := by
      rw [List.filter_eq_self]
      intro i hi
      rcases List.mem_map.1 hi with ⟨m, _, rfl⟩
      simp
    rw [h1, h2, h3]
    simp only [List.nil_append]
    rw [dupRuleIssues, hflag]
  · intro c
    simp only [contractErrorsAll, List.filter_append]
    have h1 : ((cs.schemaErrors (cs.toJson c)).map
        (fun m => ({ kind := "schema", contract_id := some c.id,
                     message := m } : IssueAll))).filter
          (fun i => i.kind == "duplicate_rule_id") = [] := by
      rw [List.filter_eq_nil_iff]
      intro i hi
      rcases List.mem_map.1 hi with ⟨m, _, rfl⟩
      simp
    have h2 : (c.all_files.filterMap (fun p =>
        if fs.pathExists p then none
        else some ({ kind := "missing_file", contract_id := some c.id,
                     message := "Referenced file does not exist: " ++ p,
                     file := some p } : IssueAll))).filter
          (fun i => i.kind == "duplicate_rule_id") = [] := by
      rw [List.filter_eq_nil_iff]
      intro i hi
      rcases List.mem_filterMap.1 hi with ⟨p, _, hp⟩
      split at hp
      · exact absurd hp (by simp)
      · cases hp
        simp
    have h3 : ((dupRuleIds (c.rules.getD [])).map
        (fun i => ({ kind := "duplicate_rule_id", contract_id := some c.id,
                     message := "Duplicate rule id: " ++ i } : IssueAll))).filter
          (fun i => i.kind == "duplicate_rule_id") =
        (dupRuleIds (c.rules.getD [])).map
          (fun i => ({ kind := "duplicate_rule_id", contract_id := some c.id,
                       message := "Duplicate rule id: " ++ i } : IssueAll)) := by
      rw [List.filter_eq_self]
      intro i hi
      rcases List.mem_map.1 hi with ⟨m, _, rfl⟩
      simp
    rw [h1, h2, h3]
    simp only [List.nil_append]
    rw [hflag]

/-- Witness for C6 at a concrete contract with a repeated rule id. -/
theorem duplicate_rule_id_characterization_witness :
    ({ pass := false,
       errors := [{ kind := "duplicate_rule_id",
                    message := "Duplicate rule id: x" }],
       warnings :=
         [{ kind := "filename_mismatch",
            message := "No file found at expected path /c/r.contract.toml"
              ++ " for contract id r",
            file := some "/c/r.contract.toml" }] } :
        ValidateResponse).errors.filter
        (fun i => i.kind == "duplicate_rule_id") =
      (flagRepeats ((dupRulesContract.rules.getD []).map Rule.id) []).map
        (fun i => { kind := "duplicate_rule_id",
                    message := "Duplicate rule id: " ++ i }) :=
  (duplicate_rule_id_characterization testCodecs [] "/c"
    [⟨"r.contract.toml", "d/r.contract.toml", Except.ok "dup"⟩] "r"
    dupRulesContract _ rfl rfl).1

/-- The per-connection session state (`src/tools/mod.rs`): a `listed` flag
set by the discovery tools, and the set of contract ids that have been
detail-read in this session. -/
structure SessionState where
  listed : Bool
  read_ids : List String

/-- A fresh session: nothing listed, nothing read. -/
def SessionState.init : SessionState := ⟨false, []⟩

/-- `require_listed` (`src/tools/mod.rs`): fail with a workflow message
when no discovery call has happened in this session. -/
def require_listed (s : SessionState) (tool cid : String) :
    Except String Unit :=
  if ¬ s.listed then
    Except.error
      ("You must call sigil_list_contracts or sigil_get_affected_contracts"
        ++ " before calling " ++ tool ++ " for " ++ cid ++ ".")
  else Except.ok ()

/-- `mark_listed`. -/
def mark_listed (s : SessionState) : SessionState :=
  { s with listed := true }

/-- `require_read` (`src/tools/mod.rs`): fail with a workflow message when
this contract id has not been detail-read in this session. -/
def require_read (s : SessionState) (tool cid : String) :
    Except String Unit :=
  if ¬ s.read_ids.contains cid then
    Except.error ("You must call sigil_get_contract for " ++ cid
      ++ " before calling " ++ tool ++ ".")
  else Except.ok ()

/-- `mark_read`: insert the id into the read set (a set, so inserting an
existing id is a no-op). -/
def mark_read (s : SessionState) (cid : String) : SessionState :=
  if cid ∈ s.read_ids then s else { s with read_ids := cid :: s.read_ids }

/-- One referenced file's resolution in the detail response
(`src/tools/get_contract.rs`; the generic-I/O error arm cannot occur in
the absence-only filesystem model). -/
inductive FileContent where
  | ok (contents : String)
  | missing

/-- The success response of `get_contract::handle`. -/
structure GetResponse where
  contract : Contract
  file_contents : Option (List (String × FileContent)) := none
  warnings : List String

/-- `get_contract::handle` (`src/tools/get_contract.rs`): check the
discovery gate first; load and look the id up; on success mark the id as
read and resolve or probe the referenced files. Returns the new session
state and the result. -/
def get_contract_handle (s : SessionState) (cs : Codecs) (fs : FS)
    (entries : List DirEntry) (cid : String) (retrieve : Option Bool) :
    SessionState × Except String GetResponse :=
  match require_listed s "sigil_get_contract" cid with
  | Except.error e => (s, Except.error e)
  | Except.ok _ =>
    let loaded := load_contracts cs entries
    match loaded.1.find? (fun c => c.id == cid) with
    | none => (s, Except.error ("Contract " ++ cid ++ " not found"))
    | some contract =>
      let s1 := mark_read s cid
      if retrieve == some true then
        let pairs := contract.all_files.map (fun p =>
          match fs.read p with
          | some contents => ((p, FileContent.ok contents), none)
          | none => ((p, FileContent.missing),
                     some ("Missing file: " ++ p)))
        (s1, Except.ok
          { contract := contract,
            file_contents := some (pairs.map Prod.fst),
            warnings := loaded.2 ++ pairs.filterMap Prod.snd })
      else
        (s1, Except.ok
          { contract := contract, file_contents := none,
            warnings := loaded.2 ++ contract.all_files.filterMap (fun p =>
              if fs.pathExists p then none
              else some ("Missing file: " ++ p)) })

/-- The parameters of `update_contract::handle`. -/
structure UpdateParams where
  contract_id : String
  updates : Json
  changelog_message : Option String

/-- The result of `update_contract::handle`: a plain error response, the
schema-failure response carrying the validation messages, or the success
payload (path, diff, warnings). -/
inductive UpdateOutcome where
  | err (msg : String)
  | schemaFail (errors : List String)
  | ok (path : String) (diff : String) (warnings : List String)

/-- The shallow merge of `update_contract::handle`: every top-level key of
the update object replaces the corresponding key of the base wholesale. -/
def shallowMerge (base upd : List (String × Json)) :
    List (String × Json) :=
  upd.foldl (fun acc kv => setField acc kv.1 kv.2) base

/-- The changelog append of `update_contract::handle`: one entry from the
merged object's `version` (default "0.0.0"), today's date and the message,
pushed onto the existing `changelog` array or placed into a fresh one. -/
def appendChangelog (merged : Json) (message today : String) : Json :=
  let version := ((merged.get "version").bind Json.asStr).getD "0.0.0"
  let entry := Json.obj [("version", Json.str version),
                         ("date", Json.str today),
                         ("description", Json.str message)]
  match merged.get "changelog" with
  | some (Json.arr a) => merged.set "changelog" (Json.arr (a ++ [entry]))
  | _ => merged.set "changelog" (Json.arr [entry])

/-- The merged object produced by update: shallow merge, then the optional
changelog append. -/
def update_merged (baseFields updFields : List (String × Json))
    (clmsg : Option String) (today : String) : Json :=
  let merged0 := Json.obj (shallowMerge baseFields updFields)
  match clmsg with
  | none => merged0
  | some message => appendChangelog merged0 message today

/-- The output identifier of update: the merged object's `id` string when
present, the input identifier otherwise. -/
def update_new_id (merged : Json) (contract_id : String) : String :=
  ((merged.get "id").bind Json.asStr).getD contract_id

/-- `update_contract::handle` (`src/tools/update_contract.rs`): gate
check, read, parse, shallow merge, optional changelog append, schema
validation, rename-collision check, write to the new path, remove the old
file when the id changed, then diff and missing-file warnings (the
warning pass probes the filesystem after the write). The filesystem model
has no transient I/O failures, so the write-failure arm does not appear. -/
def update_contract_handle (cs : Codecs) (s : SessionState) (fs : FS)
    (contractsDir : String) (params : UpdateParams) (today : String) :
    UpdateOutcome × FS :=
  match require_read s "sigil_update_contract" params.contract_id with
  | Except.error e => (UpdateOutcome.err e, fs)
  | Except.ok _ =>
    let old_path := contractPath contractsDir params.contract_id
    match fs.read old_path with
    | none =>
      (UpdateOutcome.err ("Contract " ++ params.contract_id
        ++ " not found. Use sigil_create_contract to create it."), fs)
    | some old_toml =>
      match cs.parseToml old_toml with
      | Except.error e =>
        (UpdateOutcome.err ("Failed to parse existing contract: " ++ e), fs)
      | Except.ok base =>
        match base, params.updates with
        | Json.obj baseFields, Json.obj updFields =>
          let merged :=
            update_merged baseFields updFields params.changelog_message today
          let schema_errors := cs.schemaErrors merged
          if ¬ schema_errors.isEmpty then
            (UpdateOutcome.schemaFail schema_errors, fs)
          else
            let new_id := update_new_id merged params.contract_id
            let new_path := contractPath contractsDir new_id
            if new_id ≠ params.contract_id ∧ fs.pathExists new_path then
              (UpdateOutcome.err ("Cannot rename to " ++ new_id
                ++ ": a contract with that id already exists at "
                ++ new_path ++ "."), fs)
            else
              match cs.serializeContract merged with
              | Except.error e =>
                (UpdateOutcome.err ("Failed to serialize contract: " ++ e),
                 fs)
              | Except.ok new_toml =>
                let fs1 := FS.write fs new_path new_toml
                let fs2 :=
                  if new_id ≠ params.contract_id then FS.remove fs1 old_path
                  else fs1
                let diff_text := cs.diffLines old_toml new_toml
                let diff :=
                  if diff_text = "" then "(no changes)" else diff_text
                let warnings :=
                  match cs.fromJsonContract merged with
                  | some contract =>
                    contract.all_files.filterMap (fun p =>
                      if FS.pathExists fs2 p then none
                      else some ("File does not exist: " ++ p))
                  | none => []
                (UpdateOutcome.ok new_path diff warnings, fs2)
        | _, _ => (UpdateOutcome.err "updates must be a JSON object", fs)

/-- The result of `delete_contract::handle`. -/
inductive DeleteOutcome where
  | err (msg : String)
  | ok (deleted : String)

/-- `delete_contract::handle` (`src/tools/delete_contract.rs`): gate
check, then remove the backing file, with not-found as a distinct,
reported error. -/
def delete_contract_handle (s : SessionState) (fs : FS)
    (contractsDir : String) (cid : String) : DeleteOutcome × FS :=
  match require_read s "sigil_delete_contract" cid with
  | Except.error e => (DeleteOutcome.err e, fs)
  | Except.ok _ =>
    let path := contractPath contractsDir cid
    if fs.pathExists path then (DeleteOutcome.ok path, FS.remove fs path)
    else (DeleteOutcome.err ("Contract " ++ cid ++ " not found at " ++ path),
          fs)

/-- One tool invocation of a session, carrying the directory snapshot and
arguments it runs against (every call re-reads the directory; the session
gate itself never depends on the filesystem). -/
inductive SessionOp where
  | listAll (entries : List DirEntry) (domain : Option String)
      (tags : Option (List String))
  | affected (entries : List DirEntry) (files : List String)
  | getDetail (entries : List DirEntry) (fs : FS) (cid : String)
      (retrieve : Option Bool)
  | updateOp (params : UpdateParams) (today : String)
  | deleteOp (cid : String)

/-- The discovery operations: list-all and affected-by-files. -/
def SessionOp.isDiscovery : SessionOp → Bool
  | SessionOp.listAll _ _ _ => true
  | SessionOp.affected _ _ => true
  | _ => false

/-- The session-state effect of one tool invocation: the discovery tools
call `mark_listed` unconditionally, the detail read updates the state
through its handler, update and delete only read the gate state. -/
def stepSession (cs : Codecs) (s : SessionState) : SessionOp → SessionState
  | SessionOp.listAll _ _ _ => mark_listed s
  | SessionOp.affected _ _ => mark_listed s
  | SessionOp.getDetail entries fs cid retrieve =>
    (get_contract_handle s cs fs entries cid retrieve).1
  | SessionOp.updateOp _ _ => s
  | SessionOp.deleteOp _ => s

/-- Running a session: fold the step over the invocation sequence. -/
def runSession (cs : Codecs) (s : SessionState) :
    List SessionOp → SessionState
  | [] => s
  | op :: rest => runSession cs (stepSession cs s op) rest

/-- The path of a successful update outcome, `none` on the failure arms. -/
def UpdateOutcome.okPath : UpdateOutcome → Option String
  | UpdateOutcome.ok p _ _ => some p
  | _ => none

/-- C1: on an update whose merged object's id differs from the input
contract id, if a file already exists at the new conventional path the
handler returns the collision error and the filesystem is unchanged
(neither file is touched); otherwise it succeeds, writing the serialized
merged contract to the new path and then removing the file at the old
path. -/
theorem update_rename_collision_semantics (cs : Codecs) (s : SessionState)
    (fs : FS) (dir : String) (params : UpdateParams) (today : String)
    (baseFields updFields : List (String × Json)) (old_toml : String)
    (hgate : require_read s "sigil_update_contract" params.contract_id =
      Except.ok ())
    (hread : fs.read (contractPath dir params.contract_id) = some old_toml)
    (hparse : cs.parseToml old_toml = Except.ok (Json.obj baseFields))
    (hupd : params.updates = Json.obj updFields)
    (hschema : cs.schemaErrors
      (update_merged baseFields updFields params.changelog_message today) =
        [])
    (hrename : update_new_id
        (update_merged baseFields updFields params.changelog_message today)
        params.contract_id ≠ params.contract_id) :
    (fs.pathExists (contractPath dir (update_new_id
        (update_merged baseFields updFields params.changelog_message today)
        params.contract_id)) = true →
      update_contract_handle cs s fs dir params today =
        (UpdateOutcome.err ("Cannot rename to "
          ++ update_new_id
              (update_merged baseFields updFields params.changelog_message
                today) params.contract_id
          ++ ": a contract with that id already exists at "
          ++ contractPath dir (update_new_id
              (update_merged baseFields updFields params.changelog_message
                today) params.contract_id)
          ++ "."), fs)) ∧
    (fs.pathExists (contractPath dir (update_new_id
        (update_merged baseFields updFields params.changelog_message today)
        params.contract_id)) = false →
      ∀ new_toml, cs.serializeContract
          (update_merged baseFields updFields params.changelog_message
            today) = Except.ok new_toml →
        (update_contract_handle cs s fs dir params today).2 =
          FS.remove
            (FS.write fs
              (contractPath dir (update_new_id
                (update_merged baseFields updFields params.changelog_message
                  today) params.contract_id))
              new_toml)
            (contractPath dir params.contract_id) ∧
        (update_contract_handle cs s fs dir params today).1.okPath =
          some (contractPath dir (update_new_id
            (update_merged baseFields updFields params.changelog_message
              today) params.contract_id))) := by
  constructor
  · intro hexists
    simp only [update_contract_handle, hgate, hread, hparse, hupd, hschema,
      List.isEmpty_nil]
    simp [hrename, hexists]
  · intro hmissing new_toml hser
    constructor
    · simp only [update_contract_handle, hgate, hread, hparse, hupd,
        hschema, List.isEmpty_nil]
      simp [hrename, hmissing, hser]
    · simp only [update_contract_handle, hgate, hread, hparse, hupd,
        hschema, List.isEmpty_nil]
      simp [hrename, hmissing, hser, UpdateOutcome.okPath]

/-- Witness for C1: a rename from id "a" to id "b" while a file for "b"
already exists — the collision error is returned and the filesystem is
untouched. -/
theorem update_rename_collision_semantics_witness :
    update_contract_handle testCodecs ⟨true, ["a"]⟩
        ([("d/a.contract.toml", "oldtoml"), ("d/b.contract.toml", "x")] : FS)
        "d" ⟨"a", Json.obj [("id", Json.str "b")], none⟩ "2026-02-03" =
      (UpdateOutcome.err ("Cannot rename to " ++ "b"
        ++ ": a contract with that id already exists at "
        ++ "d/b.contract.toml" ++ "."),
       ([("d/a.contract.toml", "oldtoml"),
         ("d/b.contract.toml", "x")] : FS)) :=
  (update_rename_collision_semantics testCodecs ⟨true, ["a"]⟩
      ([("d/a.contract.toml", "oldtoml"), ("d/b.contract.toml", "x")] : FS)
      "d" ⟨"a", Json.obj [("id", Json.str "b")], none⟩ "2026-02-03"
      [("id", Json.str "a")] [("id", Json.str "b")] "oldtoml"
      rfl rfl rfl rfl rfl (by decide)).1 rfl

/-- A detail read never changes the `listed` flag. -/
theorem get_contract_handle_listed (s : SessionState) (cs : Codecs)
    (fs : FS) (entries : List DirEntry) (cid : String)
    (retrieve : Option Bool) :
    ((get_contract_handle s cs fs entries cid retrieve).1).listed =
      s.listed := by
  have hmr : ∀ t, (mark_read t cid).listed = t.listed := by
    intro t
    simp only [mark_read]
    split <;> rfl
  by_cases hl : s.listed
  · have hgate : require_listed s "sigil_get_contract" cid =
        Except.ok () := by
      simp [require_listed, hl]
    cases hf : (load_contracts cs entries).1.find? (fun c => c.id == cid) with
    | none => simp [get_contract_handle, hgate, hf]
    | some c =>
      by_cases hr : (retrieve == some true) = true
      · simp [get_contract_handle, hgate, hf, hr, hmr]
      · simp [get_contract_handle, hgate, hf, hr, hmr]
  · simp [get_contract_handle, require_listed, hl]

/-- One step's effect on the `listed` flag: a discovery operation sets it,
every other operation leaves it alone. -/
theorem stepSession_listed (cs : Codecs) (s : SessionState)
    (op : SessionOp) :
    (stepSession cs s op).listed = (s.listed || op.isDiscovery) := by
  cases op with
  | listAll entries domain tags =>
    simp [stepSession, mark_listed, SessionOp.isDiscovery]
  | affected entries files =>
    simp [stepSession, mark_listed, SessionOp.isDiscovery]
  | getDetail entries fs cid retrieve =>
    simp [stepSession, SessionOp.isDiscovery, get_contract_handle_listed]
  | updateOp params today => simp [stepSession, SessionOp.isDiscovery]
  | deleteOp cid => simp [stepSession, SessionOp.isDiscovery]

/-- Over a whole session, `listed` holds exactly when some discovery
operation has run (gate state only grows; nothing resets it). -/
theorem runSession_listed (cs : Codecs) :
    ∀ (ops : List SessionOp) (s : SessionState),
      (runSession cs s ops).listed =
        (s.listed || ops.any SessionOp.isDiscovery) := by
  intro ops
  induction ops with
  | nil => intro s; simp [runSession]
  | cons op rest ih =>
    intro s
    simp [runSession, List.any_cons, ih, stepSession_listed, Bool.or_assoc]

/-- C7: a detail read performed before any discovery operation of the
session fails with the workflow error and returns no contract, leaving
the session state as it was; once the session contains at least one
discovery operation, a detail read succeeds and returns the contract for
any identifier present in the loaded store. -/
theorem discovery_gates_detail_read (cs : Codecs) (ops : List SessionOp)
    (entries : List DirEntry) (fs : FS) (cid : String)
    (retrieve : Option Bool) :
    (ops.any SessionOp.isDiscovery = false →
      get_contract_handle (runSession cs SessionState.init ops) cs fs
          entries cid retrieve =
        (runSession cs SessionState.init ops,
         Except.error
           ("You must call sigil_list_contracts or"
             ++ " sigil_get_affected_contracts"
             ++ " before calling " ++ "sigil_get_contract" ++ " for "
             ++ cid ++ "."))) ∧
    (ops.any SessionOp.isDiscovery = true →
      ∀ c, (load_contracts cs entries).1.find? (fun x => x.id == cid) =
          some c →
        ∃ resp,
          (get_contract_handle (runSession cs SessionState.init ops) cs fs
            entries cid retrieve).2 = Except.ok resp ∧
          resp.contract = c) := by
  have hlist : (runSession cs SessionState.init ops).listed =
      ops.any SessionOp.isDiscovery := by
    rw [runSession_listed]
    rfl
  constructor
  · intro hno
    have hl : (runSession cs SessionState.init ops).listed = false := by
      rw [hlist, hno]
    simp [get_contract_handle, require_listed, hl]
  · intro hyes c hfind
    have hl : (runSession cs SessionState.init ops).listed = true := by
      rw [hlist, hyes]
    have hgate : require_listed (runSession cs SessionState.init ops)
        "sigil_get_contract" cid = Except.ok () := by
      simp [require_listed, hl]
    simp only [get_contract_handle, hgate, hfind]
    by_cases hr : (retrieve == some true) = true
    · rw [if_pos hr]
      exact ⟨_, rfl, rfl⟩
    · rw [if_neg hr]
      exact ⟨_, rfl, rfl⟩

/-- Witness for C7: after one list-all call, the detail read for "a"
returns the stored contract. -/
theorem discovery_gates_detail_read_witness :
    ∃ resp,
      (get_contract_handle
          (runSession testCodecs SessionState.init
            [SessionOp.listAll [] none none])
          testCodecs []
          [⟨"a.contract.toml", "d/a.contract.toml", Except.ok "good"⟩]
          "a" none).2 = Except.ok resp ∧
      resp.contract = testContract :=
  (discovery_gates_detail_read testCodecs [SessionOp.listAll [] none none]
      [⟨"a.contract.toml", "d/a.contract.toml", Except.ok "good"⟩] []
      "a" none).2 rfl testContract rfl

/-- C10: a detail read, after discovery, for an identifier absent from the
loaded store returns the not-found error with the session state unchanged
— the identifier is not added to the read set — so a subsequent update or
delete for that identifier still fails the detail-read-required gate. -/
theorem notfound_detail_read_leaves_gate (cs : Codecs) (s : SessionState)
    (fs : FS) (entries : List DirEntry) (cid : String)
    (retrieve : Option Bool) (dir today : String) (updates : Json)
    (clmsg : Option String)
    (hl : s.listed = true)
    (hfind : (load_contracts cs entries).1.find? (fun c => c.id == cid) =
      none)
    (hnr : s.read_ids.contains cid = false) :
    get_contract_handle s cs fs entries cid retrieve =
      (s, Except.error ("Contract " ++ cid ++ " not found")) ∧
    update_contract_handle cs s fs dir ⟨cid, updates, clmsg⟩ today =
      (UpdateOutcome.err ("You must call sigil_get_contract for " ++ cid
        ++ " before calling " ++ "sigil_update_contract" ++ "."), fs) ∧
    delete_contract_handle s fs dir cid =
      (DeleteOutcome.err ("You must call sigil_get_contract for " ++ cid
        ++ " before calling " ++ "sigil_delete_contract" ++ "."), fs) := by
  have hgateR : ∀ tool, require_read s tool cid =
      Except.error ("You must call sigil_get_contract for " ++ cid
        ++ " before calling " ++ tool ++ ".") := by
    intro tool
    simp only [require_read, hnr]
    rfl
  refine ⟨?_, ?_, ?_⟩
  · simp [get_contract_handle, require_listed, hl, hfind]
  · simp [update_contract_handle, hgateR "sigil_update_contract"]
  · simp [delete_contract_handle, hgateR "sigil_delete_contract"]

/-- Witness for C10 at a concrete store without the identifier "zz". -/
theorem notfound_detail_read_leaves_gate_witness :
    get_contract_handle ⟨true, []⟩ testCodecs []
        [⟨"a.contract.toml", "d/a.contract.toml", Except.ok "good"⟩]
        "zz" none =
      (⟨true, []⟩,
       Except.error ("Contract " ++ "zz" ++ " not found")) ∧
    update_contract_handle testCodecs ⟨true, []⟩ [] "d"
        ⟨"zz", Json.null, none⟩ "2026-02-03" =
      (UpdateOutcome.err ("You must call sigil_get_contract for " ++ "zz"
        ++ " before calling " ++ "sigil_update_contract" ++ "."), []) ∧
    delete_contract_handle ⟨true, []⟩ [] "d" "zz" =
      (DeleteOutcome.err ("You must call sigil_get_contract for " ++ "zz"
        ++ " before calling " ++ "sigil_delete_contract" ++ "."), []) :=
  notfound_detail_read_leaves_gate testCodecs ⟨true, []⟩ []
    [⟨"a.contract.toml", "d/a.contract.toml", Except.ok "good"⟩]
    "zz" none "d" "2026-02-03" Json.null none rfl rfl rfl

end Sigil
